import Mathlib

/-!
Verification of the Paracon revenue-dashboard core pipeline
(`src/paracon_dashboard_app_upload_mode/app.py`): column resolution,
date normalization, fact building, filtering and aggregation.

Modelling conventions:
* floating-point cells and float-or-NaN intermediates are modelled as
  `Option ℚ` (with `none` for NaN / missing), since the pipeline only
  adds, subtracts, divides and compares them;
* pandas `Series.sum(skipna=True)` skips nulls and returns `0` on an
  empty or all-null column, hence it yields a plain `ℚ`;
* a pandas descending `sort_values` reverses the frame, runs an
  ascending argsort with the default quicksort kind, and reverses the
  resulting indexer again; numpy's quicksort is not stable beyond its
  small-array insertion-sort cutoff, so the guarantee is only a
  descending-sorted permutation — the model takes the kernel sort as a
  parameter constrained to that, and uses the stable insertion sort
  (exact in the small-array regime) only as the concrete instance for
  small examples;
* `groupby(key, sort=True)` emits one row per distinct key, keys in
  ascending order, aggregating with the skip-null sum.
-/

namespace Paracon

/-- A raw spreadsheet cell: missing, textual, or numeric. -/
inductive Cell where
  | na : Cell
  | str (s : String) : Cell
  | num (q : ℚ) : Cell
deriving DecidableEq, Repr

/-- Python / pandas case folding (`str.lower`), on the ASCII range the headers
and candidate lists use. -/
def lowerStr (s : String) : String := ⟨s.data.map Char.toLower⟩

/-- Python / pandas whitespace stripping (`str.strip`). -/
def stripChars (cs : List Char) : List Char :=
  ((cs.dropWhile Char.isWhitespace).reverse.dropWhile Char.isWhitespace).reverse

/-- `str.strip` on a string. -/
def strip (s : String) : String := ⟨stripChars s.data⟩

/-- Value of a digit list, most significant first (helper for numeric coercion). -/
def digitsVal (cs : List Char) : Nat :=
  cs.foldl (fun n c => n * 10 + (c.toNat - 48)) 0

/-- Textual numeral: optional sign, decimal digits, optional fractional part
(the shapes `pd.to_numeric` accepts from text cells). -/
def parseDecimal (s : String) : Option ℚ :=
  let cs := stripChars s.data
  let signBody : Bool × List Char :=
    match cs with
    | '-' :: rest => (true, rest)
    | '+' :: rest => (false, rest)
    | rest => (false, rest)
  let intPart := signBody.2.takeWhile Char.isDigit
  let rest := signBody.2.dropWhile Char.isDigit
  let mag : Option ℚ :=
    if intPart.isEmpty then none
    else
      match rest with
      | [] => some (digitsVal intPart : ℚ)
      | '.' :: frac =>
        if !frac.isEmpty && frac.all Char.isDigit then
          some ((digitsVal intPart : ℚ) + (digitsVal frac : ℚ) / (10 : ℚ) ^ frac.length)
        else none
      | _ => none
  mag.map (fun q => if signBody.1 then -q else q)

/-- `pd.to_numeric(col, errors="coerce")` per cell: numbers pass through,
missing and non-numeric text coerce to null. -/
def toNumeric : Cell → Option ℚ
  | Cell.na => none
  | Cell.num q => some q
  | Cell.str s => parseDecimal s

/-- `astype(str)` per cell: a missing value renders as the library's
missing-marker text (`"nan"` for a float-backed column; other backends render
a different marker text, none of which equals `"(Unmapped)"`); strings pass
through; numbers render via `toString`. -/
def cellStr : Cell → String
  | Cell.na => "nan"
  | Cell.str s => s
  | Cell.num q => toString q

/-- A calendar date as produced by the date normalizer. -/
structure Date where
  year : Nat
  month : Nat
  day : Nat
deriving DecidableEq, Repr

/-- Chronological sort key (monotone encoding of year/month/day). -/
def Date.key (dt : Date) : Nat :=
  dt.year * 10000 + dt.month * 100 + dt.day

/-- Chronological order on dates, as pandas timestamps compare. -/
def Date.le (a b : Date) : Prop := a.key ≤ b.key

instance : DecidableRel Date.le := fun a b => Nat.decLe a.key b.key

instance : IsTotal Date Date.le := ⟨fun a b => Nat.le_total a.key b.key⟩

instance : IsTrans Date Date.le := ⟨fun _ _ _ h h' => Nat.le_trans h h'⟩

/-- Gregorian leap year. -/
def isLeap (y : Nat) : Bool :=
  (y % 4 == 0 && y % 100 != 0) || y % 400 == 0

/-- Days in a month of the Gregorian calendar. -/
def daysInMonth (y m : Nat) : Nat :=
  if m == 2 then (if isLeap y then 29 else 28)
  else if m == 4 || m == 6 || m == 9 || m == 11 then 30
  else 31

/-- A real calendar date whose midnight the strict tier can return: the
output series has dtype `datetime64[ns]`, whose timestamps span
1677-09-21T00:12:43 .. 2262-04-11T23:47:16, so the representable midnights
are 1677-09-22 through 2262-04-11; `pd.to_datetime(..., errors="coerce")`
coerces a calendar-valid date outside this range to NaT. -/
def validDate (y m d : Nat) : Prop :=
  1 ≤ m ∧ m ≤ 12 ∧ 1 ≤ d ∧ d ≤ daysInMonth y m
  ∧ 16770922 ≤ y * 10000 + m * 100 + d ∧ y * 10000 + m * 100 + d ≤ 22620411

instance (y m d : Nat) : Decidable (validDate y m d) := by
  unfold validDate; infer_instance

/-- The character for a decimal digit (last digit of `n`). -/
def digitChar (n : Nat) : Char := Char.ofNat (48 + n % 10)

/-- Numeric value of a digit character. -/
def digitVal (c : Char) : Nat := c.toNat - 48

/-- Strict first tier of `normalize_period`:
`pd.to_datetime(s, errors="coerce", format="%Y-%m-%d")`, matching the
canonical zero-padded `YYYY-MM-DD` layout and validating the calendar date. -/
def parseISO (s : String) : Option Date :=
  match s.data with
  | [y1, y2, y3, y4, c1, m1, m2, c2, d1, d2] =>
    if c1 == '-' && c2 == '-' && y1.isDigit && y2.isDigit && y3.isDigit && y4.isDigit
        && m1.isDigit && m2.isDigit && d1.isDigit && d2.isDigit then
      let y := ((digitVal y1 * 10 + digitVal y2) * 10 + digitVal y3) * 10 + digitVal y4
      let mo := digitVal m1 * 10 + digitVal m2
      let dy := digitVal d1 * 10 + digitVal d2
      if validDate y mo dy then some ⟨y, mo, dy⟩ else none
    else none
  | _ => none

/-- Two-digit zero-padded numeral. -/
def pad2 (n : Nat) : List Char := [digitChar (n / 10), digitChar n]

/-- Four-digit zero-padded numeral. -/
def pad4 (n : Nat) : List Char :=
  [digitChar (n / 1000), digitChar (n / 100), digitChar (n / 10), digitChar n]

/-- The canonical `YYYY-MM-DD` rendering of a date. -/
def renderISO (dt : Date) : String :=
  ⟨pad4 dt.year ++ '-' :: (pad2 dt.month ++ '-' :: pad2 dt.day)⟩

/-- One element of `normalize_period`: values are stringified and stripped,
then tried against the strict ISO tier; only values the strict tier rejects
fall through to the lenient day-first parse, abstracted here as an arbitrary
function `lenient` (the library's inferring parser). -/
def normalizePeriodWith (lenient : String → Option Date) (v : String) : Option Date :=
  let s := strip v
  match parseISO s with
  | some dt => some dt
  | none => lenient s

/-- NaN-propagating float subtraction (`__Revenue - __Cost`). -/
def subOpt (a b : Option ℚ) : Option ℚ :=
  match a, b with
  | some x, some y => some (x - y)
  | _, _ => none

/-- A canonical fact record, one per source row. -/
structure FactRecord where
  client : String
  period : Option Date
  revenue : Option ℚ
  cost : Option ℚ
  gp : Option ℚ
deriving DecidableEq, Repr

/-- Per-row fact builder: mirrors
`fact["__Revenue"] = pd.to_numeric(...) if c_amount in fact else np.nan`,
`fact["__Cost"]` likewise, `fact["__GP"] = fact["__Revenue"] - fact["__Cost"]`,
and `fact["__Client"] = fact[c_client].astype(str) if c_client else "(Unmapped)"`.
The Booleans record whether the corresponding column was resolved. -/
def buildFactRow (hasClient hasAmount hasCost : Bool)
    (clientCell amountCell costCell : Cell) (period : Option Date) : FactRecord :=
  let rev := if hasAmount then toNumeric amountCell else none
  let cst := if hasCost then toNumeric costCell else none
  { client := if hasClient then cellStr clientCell else "(Unmapped)"
    period := period
    revenue := rev
    cost := cst
    gp := subOpt rev cst }

/-- A canonical forecast record, one per forecast-sheet row. -/
structure ForecastRecord where
  client : String
  period : Option Date
  forecastAmount : Option ℚ
deriving DecidableEq, Repr

/-- `Series.sum(skipna=True)`: nulls are skipped, the empty and all-null sums
are `0`, and the result is a plain (never-NaN) number. -/
def seriesSum (xs : List (Option ℚ)) : ℚ :=
  (xs.map (fun x => x.getD 0)).sum

/-- The four dashboard KPIs; a component is `none` exactly when the app
displays "No data" (`pd.isna(val)`). -/
structure Kpis where
  revenue : Option ℚ
  cost : Option ℚ
  grossProfit : Option ℚ
  marginPct : Option ℚ
deriving DecidableEq, Repr

/-- The KPI block: `rev`, `cost`, `gp` are skip-null sums over the filtered
facts, and `margin = (gp / rev * 100) if pd.notna(rev) and rev != 0 else
np.nan`; the sums are plain floats (never NaN), so only `rev != 0` is live
in the margin guard. -/
def sumKpis (facts : List FactRecord) : Kpis :=
  let rev := seriesSum (facts.map (·.revenue))
  let cst := seriesSum (facts.map (·.cost))
  let gp := seriesSum (facts.map (·.gp))
  { revenue := some rev
    cost := some cst
    grossProfit := some gp
    marginPct := if rev ≠ 0 then some (gp / rev * 100) else none }

/-- `Series.between(lo, hi)` on the period column: inclusive on both ends,
false on a null (NaT) period. -/
def periodBetween (p : Option Date) (lo hi : Date) : Bool :=
  match p with
  | some dt => decide (Date.le lo dt) && decide (Date.le dt hi)
  | none => false

/-- The row mask: `(fact["__Client"].isin(sel_clients) if sel_clients else
True) & fact["__Period"].between(lo, hi)` — an empty selection list is falsy
in Python, so it disables the client predicate. -/
def factMask (sel : List String) (lo hi : Date) (r : FactRecord) : Bool :=
  (if sel.isEmpty then true else sel.contains r.client) && periodBetween r.period lo hi

/-- `fact_f = fact[mask]`. -/
def filterFacts (sel : List String) (lo hi : Date) (facts : List FactRecord) :
    List FactRecord :=
  facts.filter (factMask sel lo hi)

/-- The dict comprehension in `find_col`: lower-cased header mapped to the
original header, built left to right, so a later duplicate key overwrites an
earlier binding for the same key. The dict is modelled as its lookup map. -/
def colMap (cols : List String) : String → Option String :=
  cols.foldl (fun m c => fun k => if k = lowerStr c then some c else m k) (fun _ => none)

/-- `find_col(df, candidates)`: return the header stored under the first
candidate whose lower-cased form is a key of the dict, else `None`. -/
def find_col (cols : List String) : List String → Option String
  | [] => none
  | cand :: rest =>
    match colMap cols (lowerStr cand) with
    | some c => some c
    | none => find_col cols rest

/-! ### Lemmas about the dict model of the column resolver -/

theorem getLast?_cons_or (c : String) (l : List String) :
    (c :: l).getLast? = Option.or l.getLast? (some c) := by
  rw [List.getLast?_cons]
  cases l.getLast? <;> rfl

theorem colMap_foldl (cols : List String) (m : String → Option String) (k : String) :
    List.foldl (fun m c => fun k => if k = lowerStr c then some c else m k) m cols k
      = Option.or ((cols.filter (fun c => lowerStr c == k)).getLast?) (m k) := by
  induction cols generalizing m with
  | nil => simp
  | cons c cs ih =>
    simp only [List.foldl_cons, List.filter_cons]
    by_cases hc : lowerStr c = k
    · have hcb : (lowerStr c == k) = true := beq_iff_eq.mpr hc
      rw [hcb]
      simp only [if_true]
      rw [ih, getLast?_cons_or, Option.or_assoc, if_pos hc.symm]
      rfl
    · have hcb : (lowerStr c == k) = false := beq_false_of_ne hc
      rw [hcb]
      simp only [Bool.false_eq_true, if_false]
      rw [ih, if_neg (fun h => hc h.symm)]

theorem colMap_eq_getLast (cols : List String) (k : String) :
    colMap cols k = (cols.filter (fun c => lowerStr c == k)).getLast? := by
  rw [colMap, colMap_foldl]
  exact Option.or_none

/-- Claim C7 (amended): the column resolver returns the header matched by the
first candidate, in caller-supplied priority order, whose lower-cased form
equals a lower-cased table header; when several headers are equal
case-insensitively, the dict comprehension makes the LAST such header win
(later keys overwrite earlier ones), not the first: with headers
`["CLIENT", "client"]` the candidate `"Client"` resolves to `"client"`. -/
theorem find_col_amended :
    (∀ (cols : List String) (cand : String) (rest : List String),
      find_col cols (cand :: rest)
        = Option.or ((cols.filter (fun h0 => lowerStr h0 == lowerStr cand)).getLast?)
            (find_col cols rest))
    ∧ find_col ["CLIENT", "client"] ["Client"] = some "client" := by
  constructor
  · intro cols cand rest
    show (match colMap cols (lowerStr cand) with
      | some c => some c
      | none => find_col cols rest) = _
    rw [colMap_eq_getLast]
    cases (cols.filter (fun h0 => lowerStr h0 == lowerStr cand)).getLast? <;> rfl
  · decide

/-- Claim C7, counterexample: with two case-insensitively equal headers the
resolver picks the LAST one, not the first as the claim states. -/
theorem find_col_counterexample :
    find_col ["CLIENT", "client"] ["Client"] = some "client"
    ∧ find_col ["CLIENT", "client"] ["Client"] ≠ some "CLIENT" := by
  constructor
  · decide
  · decide

/-! ### KPI theorems -/

/-- Claim C1, counterexample: on an empty record set the revenue KPI is the
empty skip-null sum `0`, displayed as `R0`, not the null the claim predicts
for all four KPIs. -/
theorem sumKpis_empty_counterexample :
    (sumKpis []).revenue = some 0 ∧ (sumKpis []).revenue ≠ none := by
  refine ⟨rfl, ?_⟩
  intro h
  exact Option.noConfusion h

/-- Claim C1 (amended): on an empty record set the revenue, cost and gross
profit KPIs all report the pandas empty-sum `0` (rendered `R0`), and only the
margin KPI reports "no data" (null), through its explicit zero-revenue guard. -/
theorem sumKpis_empty_amended :
    sumKpis [] = ⟨some 0, some 0, some 0, none⟩ := by
  rfl

/-- Claim C9: whenever the summed revenue is exactly `0`, the margin KPI is
null — the division in `gp / rev * 100` is guarded away — while the cost and
gross-profit sums are still reported (skip-null float sums are never NaN). -/
theorem margin_null_on_zero_revenue (facts : List FactRecord)
    (h : seriesSum (facts.map (·.revenue)) = 0) :
    (sumKpis facts).marginPct = none
    ∧ (sumKpis facts).cost.isSome = true
    ∧ (sumKpis facts).grossProfit.isSome = true := by
  refine ⟨?_, rfl, rfl⟩
  simp [sumKpis, h]

/-- Claim C9, witness: a one-row record set whose revenue is null (so the
revenue sum is `0`) but whose cost is present still gets a null margin. -/
theorem margin_null_on_zero_revenue_witness :
    (sumKpis [⟨"X", none, none, some 5, none⟩]).marginPct = none :=
  (margin_null_on_zero_revenue [⟨"X", none, none, some 5, none⟩] (by
    simp [seriesSum])).1

/-! ### Fact-builder theorems -/

/-- Claim C4: for every built fact row, the gross profit is the difference of
the stored revenue and cost when both are present, and is null whenever either
operand is null — no zero is substituted. -/
theorem grossProfit_null_propagation (hCl ha hc : Bool) (cc ca co : Cell)
    (p : Option Date) :
    (∀ x y, (buildFactRow hCl ha hc cc ca co p).revenue = some x →
        (buildFactRow hCl ha hc cc ca co p).cost = some y →
        (buildFactRow hCl ha hc cc ca co p).gp = some (x - y))
    ∧ (((buildFactRow hCl ha hc cc ca co p).revenue = none ∨
        (buildFactRow hCl ha hc cc ca co p).cost = none) →
        (buildFactRow hCl ha hc cc ca co p).gp = none) := by
  have hgp : (buildFactRow hCl ha hc cc ca co p).gp
      = subOpt (buildFactRow hCl ha hc cc ca co p).revenue
          (buildFactRow hCl ha hc cc ca co p).cost := rfl
  constructor
  · intro x y hx hy
    rw [hgp, hx, hy]
    rfl
  · rintro (h | h)
    · rw [hgp, h]
      cases (buildFactRow hCl ha hc cc ca co p).cost <;> rfl
    · rw [hgp, h]
      cases (buildFactRow hCl ha hc cc ca co p).revenue <;> rfl

/-- Claim C8, counterexample: with a resolvable client column, an empty
client cell is stringified to the missing-marker text (`"nan"`), not coerced
to the `"(Unmapped)"` sentinel the claim states. -/
theorem client_empty_cell_counterexample :
    (buildFactRow true true true Cell.na (Cell.num 1) (Cell.num 1) none).client = "nan"
    ∧ (buildFactRow true true true Cell.na (Cell.num 1) (Cell.num 1) none).client
        ≠ "(Unmapped)" := by
  exact ⟨rfl, by decide⟩

/-- Claim C8 (amended): when the client column resolves, every cell — an empty
one included — is stringified as-is, so an empty cell yields the
missing-marker text (`"nan"`), which differs from `"(Unmapped)"`; the
`"(Unmapped)"` sentinel is applied, uniformly, exactly when the client column
itself is unresolved. -/
theorem client_empty_cell_amended (ha hc : Bool) (cc ca co : Cell) (p : Option Date) :
    (buildFactRow true ha hc cc ca co p).client = cellStr cc
    ∧ (buildFactRow true ha hc Cell.na ca co p).client = "nan"
    ∧ (buildFactRow false ha hc cc ca co p).client = "(Unmapped)"
    ∧ ("nan" : String) ≠ "(Unmapped)" := by
  exact ⟨rfl, rfl, rfl, by decide⟩

/-! ### Date-normalizer theorems -/

theorem digitChar_isDigit (n : Nat) : (digitChar n).isDigit = true := by
  have h : n % 10 < 10 := Nat.mod_lt _ (by norm_num)
  unfold digitChar
  revert h
  generalize n % 10 = k
  intro h
  interval_cases k <;> decide

theorem digitVal_digitChar (n : Nat) : digitVal (digitChar n) = n % 10 := by
  have h : n % 10 < 10 := Nat.mod_lt _ (by norm_num)
  unfold digitChar digitVal
  revert h
  generalize n % 10 = k
  intro h
  interval_cases k <;> decide

theorem daysInMonth_le (y m : Nat) : daysInMonth y m ≤ 31 := by
  unfold daysInMonth
  split
  · split <;> omega
  · split <;> omega

/-- The strict tier accepts the canonical rendering of every real calendar
date and returns exactly that date. -/
theorem parseISO_renderISO (dt : Date) (hd : validDate dt.year dt.month dt.day) :
    parseISO (renderISO dt) = some dt := by
  obtain ⟨y, m, d⟩ := dt
  obtain ⟨hm1, hm2, hd1, hd2, hk1, hk2⟩ := hd
  dsimp only at hm1 hm2 hd1 hd2 hk1 hk2
  have hy2 : y ≤ 9999 := by omega
  have hd31 : d ≤ 31 := le_trans hd2 (daysInMonth_le y m)
  have hvd : validDate y m d := ⟨hm1, hm2, hd1, hd2, hk1, hk2⟩
  show parseISO ⟨pad4 y ++ '-' :: (pad2 m ++ '-' :: pad2 d)⟩ = some ⟨y, m, d⟩
  dsimp only [parseISO, pad4, pad2, List.cons_append, List.nil_append]
  simp only [digitChar_isDigit, digitVal_digitChar]
  have hy : ((y / 1000 % 10 * 10 + y / 100 % 10) * 10 + y / 10 % 10) * 10 + y % 10 = y := by
    omega
  have hm : m / 10 % 10 * 10 + m % 10 = m := by omega
  have hdd : d / 10 % 10 * 10 + d % 10 = d := by omega
  simp only [hy, hm, hdd]
  rw [if_pos hvd]
  rfl

/-- Claim C3 (amended): a cell value whose stripped text is the canonical
`YYYY-MM-DD` rendering of a real calendar date within the representable
`datetime64[ns]` range (1677-09-22 through 2262-04-11) is resolved by the
strict first tier of `normalize_period` to exactly that date, for EVERY
behaviour of the lenient day-first second tier — the lenient parser is never
consulted for such values. Calendar-valid ISO dates outside that range are
coerced to NaT by the strict tier and fall through to the lenient tier
instead (see the counterexample). -/
theorem iso_strict_tier (lenient : String → Option Date) (v : String) (dt : Date)
    (hv : strip v = renderISO dt) (hd : validDate dt.year dt.month dt.day) :
    normalizePeriodWith lenient v = some dt ∧ parseISO (strip v) = some dt := by
  have hp : parseISO (strip v) = some dt := by
    rw [hv]
    exact parseISO_renderISO dt hd
  refine ⟨?_, hp⟩
  show (match parseISO (strip v) with
    | some d0 => some d0
    | none => lenient (strip v)) = some dt
  rw [hp]

/-- Claim C3, witness: the ISO string `2025-03-14` normalizes to March 14,
2025 via the strict tier, under a lenient tier that rejects everything. -/
theorem iso_strict_tier_witness :
    normalizePeriodWith (fun _ => none) "2025-03-14" = some ⟨2025, 3, 14⟩ :=
  (iso_strict_tier (fun _ => none) "2025-03-14" ⟨2025, 3, 14⟩ (by decide) (by decide)).1

/-- Claim C3, counterexample: `1500-01-01` is a calendar-valid ISO date
string, but it lies outside the `datetime64[ns]` range, so the strict tier
coerces it to NaT rather than returning January 1, 1500; the value falls
through to the lenient tier (which cannot represent it either — here a
lenient tier returning NaT), and the normalizer yields null, not the date. -/
theorem iso_strict_tier_counterexample :
    parseISO (strip "1500-01-01") = none
    ∧ normalizePeriodWith (fun _ => none) "1500-01-01" = none
    ∧ (none : Option Date) ≠ some ⟨1500, 1, 1⟩ := by
  refine ⟨by decide, by decide, by decide⟩

/-! ### Filter-engine theorem -/

/-- Claim C5: the filter keeps exactly the records whose client belongs to the
selection — every record when the selection is empty, the client predicate
being vacuously true then — and whose period is non-null and inside the
inclusive range; a record with a null period never passes. -/
theorem filter_engine_characterization (sel : List String) (lo hi : Date)
    (facts : List FactRecord) (r : FactRecord) :
    (r ∈ filterFacts sel lo hi facts ↔
      r ∈ facts ∧ (sel = [] ∨ r.client ∈ sel)
        ∧ ∃ p, r.period = some p ∧ Date.le lo p ∧ Date.le p hi)
    ∧ (r.period = none → r ∉ filterFacts sel lo hi facts) := by
  have hclient : ((if sel.isEmpty then true else sel.contains r.client) = true)
      ↔ (sel = [] ∨ r.client ∈ sel) := by
    cases sel with
    | nil => simp
    | cons a l => simp [List.contains]
  have hperiod : (periodBetween r.period lo hi = true)
      ↔ ∃ p, r.period = some p ∧ Date.le lo p ∧ Date.le p hi := by
    cases hp : r.period with
    | none => simp [periodBetween]
    | some p => simp [periodBetween, decide_eq_true_iff]
  constructor
  · rw [filterFacts, List.mem_filter]
    simp only [factMask, Bool.and_eq_true, hclient, hperiod, and_assoc]
  · intro hnone hmem
    rw [filterFacts, List.mem_filter] at hmem
    simp only [factMask, Bool.and_eq_true, hclient, hperiod] at hmem
    obtain ⟨-, -, p, hp, -⟩ := hmem
    rw [hnone] at hp
    exact Option.noConfusion hp

/-! ### String comparison as Python compares (code points, lexicographic)

pandas `groupby(sort=True)` and `sort_values` order client keys with Python
string comparison: lexicographic on code points. -/

/-- Three-way lexicographic comparison of character lists. -/
def cmpChars : List Char → List Char → Ordering
  | [], [] => Ordering.eq
  | [], _ :: _ => Ordering.lt
  | _ :: _, [] => Ordering.gt
  | a :: as, b :: bs =>
    if a < b then Ordering.lt
    else if b < a then Ordering.gt
    else cmpChars as bs

/-- Python `a <= b` on strings. -/
def strLe (a b : String) : Bool := cmpChars a.data b.data != Ordering.gt

theorem cmpChars_swap (as bs : List Char) : cmpChars bs as = (cmpChars as bs).swap := by
  induction as generalizing bs with
  | nil => cases bs <;> rfl
  | cons a as ih =>
    cases bs with
    | nil => rfl
    | cons b bs =>
      by_cases hab : a < b
      · have hba : ¬ b < a := lt_asymm hab
        simp only [cmpChars, if_pos hab, if_neg hba]
        rfl
      · by_cases hba : b < a
        · simp only [cmpChars, if_pos hba, if_neg hab]
          rfl
        · simp only [cmpChars, if_neg hab, if_neg hba, ih bs]

theorem cmpChars_eq_iff (as bs : List Char) : cmpChars as bs = Ordering.eq ↔ as = bs := by
  induction as generalizing bs with
  | nil => cases bs <;> simp [cmpChars]
  | cons a as ih =>
    cases bs with
    | nil => simp [cmpChars]
    | cons b bs =>
      by_cases hab : a < b
      · simp only [cmpChars, if_pos hab]
        constructor
        · intro h; exact Ordering.noConfusion h
        · intro h
          rw [List.cons.injEq] at h
          exact absurd hab (by rw [h.1]; exact lt_irrefl b)
      · by_cases hba : b < a
        · simp only [cmpChars, if_neg hab, if_pos hba]
          constructor
          · intro h; exact Ordering.noConfusion h
          · intro h
            rw [List.cons.injEq] at h
            exact absurd hba (by rw [h.1]; exact lt_irrefl b)
        · have hab' : a = b := le_antisymm (not_lt.mp hba) (not_lt.mp hab)
          subst hab'
          simp only [cmpChars, if_neg hab, if_neg hba]
          rw [ih bs]
          simp

/-! ### Aggregator definitions -/

/-- `to_period("M").to_timestamp()`: truncate a date to the first of its month. -/
def monthStart (dt : Date) : Date := ⟨dt.year, dt.month, 1⟩

/-- The `(period, value)` pairs of the rows that survive
`dropna(subset=["__Period"])`, keeping the value column of interest. -/
def rowsOf {α : Type} (per : α → Option Date) (val : α → Option ℚ) (l : List α) :
    List (Date × Option ℚ) :=
  l.filterMap (fun r => (per r).map (fun p => (p, val r)))

/-- `fact_f` rows with period and revenue. -/
def factRows (facts : List FactRecord) : List (Date × Option ℚ) :=
  rowsOf (fun r => r.period) (fun r => r.revenue) facts

/-- `forecast_f` rows with period and forecast amount. -/
def forecastRows (fs : List ForecastRecord) : List (Date × Option ℚ) :=
  rowsOf (fun r => r.period) (fun r => r.forecastAmount) fs

/-- `assign(Period=monthStart).groupby("Period", as_index=False)[col].sum()`:
one row per distinct month, months ascending, each with the skip-null sum of
the value column over its rows. -/
def monthlySums (rows : List (Date × Option ℚ)) : List (Date × ℚ) :=
  (List.insertionSort Date.le ((rows.map (fun pr => monthStart pr.1)).dedup)).map
    (fun mo =>
      (mo, seriesSum ((rows.filter (fun pr => monthStart pr.1 == mo)).map (fun pr => pr.2))))

/-- The value a keyed frame holds for a month, if the month is present
(the matched side of a merge; an unmatched key yields NaN, here `none`). -/
def lookupMonth (l : List (Date × ℚ)) (mo : Date) : Option ℚ :=
  (l.find? (fun pr => pr.1 == mo)).map (fun pr => pr.2)

/-- `af = pd.merge(act, fc, on="Period", how="outer").sort_values("Period")`:
one row per month present on either side, months ascending; a month absent
from one side carries NaN (`none`) there. -/
def actualVsForecast (facts : List FactRecord) (fs : List ForecastRecord) :
    List (Date × Option ℚ × Option ℚ) :=
  (List.insertionSort Date.le
      (((monthlySums (factRows facts)).map (fun pr => pr.1)
        ++ (monthlySums (forecastRows fs)).map (fun pr => pr.1)).dedup)).map
    (fun mo => (mo, lookupMonth (monthlySums (factRows facts)) mo,
      lookupMonth (monthlySums (forecastRows fs)) mo))

/-- The actual-vs-forecast block runs under
`if forecast_f["__Period"].notna().any():` — `none` models the chart never
being computed. -/
def actualVsForecastSection (facts : List FactRecord) (fs : List ForecastRecord) :
    Option (List (Date × Option ℚ × Option ℚ)) :=
  if fs.any (fun r => r.period.isSome) then some (actualVsForecast facts fs) else none

/-- Spec-side monthly aggregate, written from the spec's words: group the
records with a non-null period by first-of-month truncation and sum the value
per group; a month with no contributing record is absent (`none`). -/
def specMonthly {α : Type} (per : α → Option Date) (val : α → Option ℚ) (l : List α)
    (mo : Date) : Option ℚ :=
  if (l.filter (fun r => (per r).any (fun p => monthStart p == mo))).isEmpty then none
  else some (seriesSum ((l.filter (fun r => (per r).any (fun p => monthStart p == mo))).map val))

/-- Spec-side monthly actual revenue sum. -/
def specMonthlyActual (facts : List FactRecord) (mo : Date) : Option ℚ :=
  specMonthly (fun r => r.period) (fun r => r.revenue) facts mo

/-- Spec-side monthly forecast sum. -/
def specMonthlyForecast (fs : List ForecastRecord) (mo : Date) : Option ℚ :=
  specMonthly (fun r => r.period) (fun r => r.forecastAmount) fs mo

/-- The revenue a client's rows sum to (groupby-sum with skip-null). -/
def clientRevenueSum (facts : List FactRecord) (c : String) : ℚ :=
  seriesSum ((facts.filter (fun r => r.client == c)).map (fun r => r.revenue))

instance : DecidableRel (fun a b : String => strLe a b = true) :=
  fun _ _ => instDecidableEqBool _ _

/-- `groupby("__Client", as_index=False)["__Revenue"].sum()`: one row per
distinct client, clients in ascending Python string order, each with its
revenue sum. -/
def clientGroups (facts : List FactRecord) : List (String × ℚ) :=
  (List.insertionSort (fun a b => strLe a b = true)
      ((facts.map (fun r => r.client)).dedup)).map
    (fun c => (c, clientRevenueSum facts c))

/-- `sort_values("__Revenue", ascending=False).head(15)` over the grouped
frame, for a given descending kernel sort: pandas argsorts ascending with the
default quicksort kind and reverses the frame and the indexer around it, so
all that is guaranteed of the kernel is a permutation of the groups sorted
descending by revenue — numpy's quicksort is not stable beyond its
small-array insertion-sort cutoff, so the tie order is
implementation-defined in general. -/
def top_clientsWith (sortDesc : List (String × ℚ) → List (String × ℚ))
    (facts : List FactRecord) : List (String × ℚ) :=
  (sortDesc (clientGroups facts)).take 15

/-- `top_clients` with the kernel the small-array regime produces: below
numpy's quicksort cutoff the kernel is a stable insertion sort, and pandas'
double reversal then yields a stable descending sort — exact for the
concrete three-group examples evaluated here. -/
def top_clients (facts : List FactRecord) : List (String × ℚ) :=
  top_clientsWith (List.insertionSort (fun a b : String × ℚ => b.2 ≤ a.2)) facts

theorem cmpChars_lt_trans (as bs cs : List Char) (h1 : cmpChars as bs = Ordering.lt)
    (h2 : cmpChars bs cs = Ordering.lt) : cmpChars as cs = Ordering.lt := by
  induction as generalizing bs cs with
  | nil =>
    cases cs with
    | nil =>
      cases bs with
      | nil => exact h1
      | cons b bs => exact absurd h2 (by simp [cmpChars])
    | cons c cs => rfl
  | cons a as ih =>
    cases bs with
    | nil => exact absurd h1 (by simp [cmpChars])
    | cons b bs =>
      cases cs with
      | nil => exact absurd h2 (by simp [cmpChars])
      | cons c cs =>
        by_cases hab : a < b <;> by_cases hbc : b < c
        · have hac : a < c := lt_trans hab hbc
          simp [cmpChars, hac]
        · by_cases hcb : c < b
          · exact absurd h2 (by simp [cmpChars, hbc, hcb])
          · have hbc' : b = c := le_antisymm (not_lt.mp hcb) (not_lt.mp hbc)
            subst hbc'
            simp [cmpChars, hab]
        · by_cases hba : b < a
          · exact absurd h1 (by simp [cmpChars, hab, hba])
          · have hab' : a = b := le_antisymm (not_lt.mp hba) (not_lt.mp hab)
            subst hab'
            simp [cmpChars, hbc]
        · by_cases hba : b < a
          · exact absurd h1 (by simp [cmpChars, hab, hba])
          · by_cases hcb : c < b
            · exact absurd h2 (by simp [cmpChars, hbc, hcb])
            · have hab' : a = b := le_antisymm (not_lt.mp hba) (not_lt.mp hab)
              have hbc' : b = c := le_antisymm (not_lt.mp hcb) (not_lt.mp hbc)
              subst hab'; subst hbc'
              simp only [cmpChars, if_neg hab, if_neg hba] at h1 h2 ⊢
              exact ih bs cs h1 h2

theorem cmpChars_self (as : List Char) : cmpChars as as = Ordering.eq :=
  (cmpChars_eq_iff as as).mpr rfl

theorem strLe_iff (a b : String) :
    strLe a b = true ↔ (cmpChars a.data b.data = Ordering.lt ∨ a = b) := by
  constructor
  · intro h
    cases hc : cmpChars a.data b.data with
    | lt => exact Or.inl rfl
    | eq => exact Or.inr (String.ext ((cmpChars_eq_iff a.data b.data).mp hc))
    | gt =>
      unfold strLe at h
      rw [hc] at h
      exact absurd h (by decide)
  · rintro (h | h)
    · unfold strLe
      rw [h]
      decide
    · subst h
      unfold strLe
      rw [cmpChars_self]
      decide

instance : IsTotal String (fun a b => strLe a b = true) := by
  constructor
  intro a b
  cases hc : cmpChars a.data b.data with
  | lt =>
    left
    unfold strLe
    rw [hc]
    rfl
  | eq =>
    left
    unfold strLe
    rw [hc]
    rfl
  | gt =>
    right
    unfold strLe
    rw [cmpChars_swap, hc]
    rfl

instance : IsTrans String (fun a b => strLe a b = true) := by
  constructor
  intro a b c hab hbc
  rw [strLe_iff] at hab hbc ⊢
  rcases hab with hab | hab
  · rcases hbc with hbc | hbc
    · exact Or.inl (cmpChars_lt_trans _ _ _ hab hbc)
    · subst hbc
      exact Or.inl hab
  · subst hab
    exact hbc

/-- The spec's tie example: clients A and B tie at 300, C at 100, A first. -/
def exampleFactsABC : List FactRecord :=
  [⟨"A", none, some 300, none, none⟩, ⟨"B", none, some 300, none, none⟩,
    ⟨"C", none, some 100, none, none⟩]

/-- The same rows with B encountered first in input order. -/
def exampleFactsBAC : List FactRecord :=
  [⟨"B", none, some 300, none, none⟩, ⟨"A", none, some 300, none, none⟩,
    ⟨"C", none, some 100, none, none⟩]

theorem clientGroups_exampleABC :
    clientGroups exampleFactsABC = [("A", 300), ("B", 300), ("C", 100)] := by
  have hsort0 : List.insertionSort (fun a b => strLe a b = true)
      ((exampleFactsABC.map (fun r => r.client)).dedup) = ["A", "B", "C"] := by
    decide
  have hA : clientRevenueSum exampleFactsABC "A" = 300 := by
    have hf : exampleFactsABC.filter (fun r => r.client == "A")
        = [⟨"A", none, some 300, none, none⟩] := by decide
    rw [clientRevenueSum, hf]
    simp [seriesSum]
  have hB : clientRevenueSum exampleFactsABC "B" = 300 := by
    have hf : exampleFactsABC.filter (fun r => r.client == "B")
        = [⟨"B", none, some 300, none, none⟩] := by decide
    rw [clientRevenueSum, hf]
    simp [seriesSum]
  have hC : clientRevenueSum exampleFactsABC "C" = 100 := by
    have hf : exampleFactsABC.filter (fun r => r.client == "C")
        = [⟨"C", none, some 100, none, none⟩] := by decide
    rw [clientRevenueSum, hf]
    simp [seriesSum]
  unfold clientGroups
  rw [hsort0]
  simp [hA, hB, hC]

theorem clientGroups_exampleBAC :
    clientGroups exampleFactsBAC = [("A", 300), ("B", 300), ("C", 100)] := by
  have hsort0 : List.insertionSort (fun a b => strLe a b = true)
      ((exampleFactsBAC.map (fun r => r.client)).dedup) = ["A", "B", "C"] := by
    decide
  have hA : clientRevenueSum exampleFactsBAC "A" = 300 := by
    have hf : exampleFactsBAC.filter (fun r => r.client == "A")
        = [⟨"A", none, some 300, none, none⟩] := by decide
    rw [clientRevenueSum, hf]
    simp [seriesSum]
  have hB : clientRevenueSum exampleFactsBAC "B" = 300 := by
    have hf : exampleFactsBAC.filter (fun r => r.client == "B")
        = [⟨"B", none, some 300, none, none⟩] := by decide
    rw [clientRevenueSum, hf]
    simp [seriesSum]
  have hC : clientRevenueSum exampleFactsBAC "C" = 100 := by
    have hf : exampleFactsBAC.filter (fun r => r.client == "C")
        = [⟨"C", none, some 100, none, none⟩] := by decide
    rw [clientRevenueSum, hf]
    simp [seriesSum]
  unfold clientGroups
  rw [hsort0]
  simp [hA, hB, hC]

theorem top_clients_exampleABC :
    top_clients exampleFactsABC = [("A", 300), ("B", 300), ("C", 100)] := by
  unfold top_clients top_clientsWith
  rw [clientGroups_exampleABC]
  decide

theorem top_clients_exampleBAC :
    top_clients exampleFactsBAC = [("A", 300), ("B", 300), ("C", 100)] := by
  unfold top_clients top_clientsWith
  rw [clientGroups_exampleBAC]
  decide

/-- Claim C2 (amended): `top_clients` groups the rows by client key, sums
revenue per client (nulls as zero), orders the groups by summed revenue
descending and truncates to the top 15 — and this holds for EVERY kernel
sort that returns a descending-sorted permutation of the groups, which is
all numpy's default quicksort kind guarantees. Ties are NOT broken by input
encounter order: `groupby(sort=True)` has already reordered the groups by
client key, so no trace of encounter order survives, and the kernel's tie
order is implementation-defined in general (quicksort is unstable beyond its
small-array insertion-sort cutoff). In the small-array regime the kernel is
a stable insertion sort and pandas' double reversal preserves the
client-ascending frame order at ties: on the example A:300, B:300, C:100 the
result is A, then B, then C, whatever the encounter order. -/
theorem top_clients_amended :
    (∀ sortDesc : List (String × ℚ) → List (String × ℚ),
      (∀ l, (sortDesc l).Perm l) →
      (∀ l, (sortDesc l).Pairwise (fun a b : String × ℚ => b.2 ≤ a.2)) →
      ∀ facts : List FactRecord,
        (top_clientsWith sortDesc facts).Pairwise (fun a b : String × ℚ => b.2 ≤ a.2)
        ∧ (∀ pr ∈ top_clientsWith sortDesc facts,
            pr.1 ∈ facts.map (fun r => r.client) ∧ pr.2 = clientRevenueSum facts pr.1)
        ∧ (top_clientsWith sortDesc facts).length ≤ 15)
    ∧ top_clients exampleFactsABC = [("A", 300), ("B", 300), ("C", 100)] := by
  constructor
  · intro sortDesc hperm hsorted facts
    refine ⟨?_, ?_, ?_⟩
    · exact List.Pairwise.sublist (List.take_sublist _ _) (hsorted (clientGroups facts))
    · intro pr hpr
      unfold top_clientsWith at hpr
      have h1 : pr ∈ sortDesc (clientGroups facts) := (List.take_sublist _ _).subset hpr
      have h2 : pr ∈ clientGroups facts := ((hperm (clientGroups facts)).mem_iff).mp h1
      unfold clientGroups at h2
      obtain ⟨c, hc, hceq⟩ := List.mem_map.mp h2
      have hcmem : c ∈ facts.map (fun r => r.client) :=
        List.mem_dedup.mp (((List.perm_insertionSort _ _).mem_iff).mp hc)
      rw [← hceq]
      exact ⟨hcmem, rfl⟩
    · exact List.length_take_le _ _
  · exact top_clients_exampleABC

/-- Claim C2, counterexample: with the tied rows encountered in order
B, A, C the claim predicts B before A (encounter order at ties); the code
returns A before B — the groups are pre-sorted by client key, and at this
size the kernel is numpy's stable insertion-sort regime, so the
client-ascending order survives the descending sort. -/
theorem top_clients_counterexample :
    top_clients exampleFactsBAC = [("A", 300), ("B", 300), ("C", 100)]
    ∧ ([("A", (300 : ℚ)), ("B", 300), ("C", 100)] : List (String × ℚ))
        ≠ [("B", 300), ("A", 300), ("C", 100)] := by
  refine ⟨top_clients_exampleBAC, by decide⟩

/-! ### Actual-vs-forecast theorems -/

theorem lookupMonth_map (g : Date → ℚ) (ms : List Date) (mo : Date) :
    lookupMonth (ms.map (fun m0 => (m0, g m0))) mo
      = if mo ∈ ms then some (g mo) else none := by
  induction ms with
  | nil => simp [lookupMonth]
  | cons m ms ih =>
    rw [List.map_cons]
    by_cases hm : m = mo
    · subst hm
      unfold lookupMonth
      rw [List.find?_cons_of_pos _ (by simp)]
      simp
    · unfold lookupMonth
      rw [List.find?_cons_of_neg _ (by simp [hm])]
      unfold lookupMonth at ih
      rw [ih]
      by_cases hmem : mo ∈ ms
      · rw [if_pos hmem, if_pos (List.mem_cons_of_mem _ hmem)]
      · rw [if_neg hmem, if_neg (by
          intro hc
          rcases List.mem_cons.mp hc with h | h
          · exact hm h.symm
          · exact hmem h)]

theorem map_fst_map_pair (g : Date → ℚ) (ms : List Date) :
    ((ms.map (fun m0 => (m0, g m0))).map (fun pr => pr.1)) = ms := by
  induction ms with
  | nil => rfl
  | cons m ms ih => simp [ih]

theorem map_fst_map_triple (g h0 : Date → Option ℚ) (ms : List Date) :
    ((ms.map (fun m0 => (m0, g m0, h0 m0))).map (fun t => t.1)) = ms := by
  induction ms with
  | nil => rfl
  | cons m ms ih => simp [ih]

theorem months_of_monthlySums (rows : List (Date × Option ℚ)) :
    (monthlySums rows).map (fun pr => pr.1)
      = List.insertionSort Date.le ((rows.map (fun pr => monthStart pr.1)).dedup) := by
  unfold monthlySums
  exact map_fst_map_pair _ _

theorem mem_monthlySums_months (rows : List (Date × Option ℚ)) (mo : Date) :
    (mo ∈ (monthlySums rows).map (fun pr => pr.1))
      ↔ mo ∈ rows.map (fun pr => monthStart pr.1) := by
  rw [months_of_monthlySums, (List.perm_insertionSort _ _).mem_iff, List.mem_dedup]

theorem lookupMonth_monthlySums (rows : List (Date × Option ℚ)) (mo : Date) :
    lookupMonth (monthlySums rows) mo
      = if mo ∈ rows.map (fun pr => monthStart pr.1)
        then some (seriesSum ((rows.filter (fun pr => monthStart pr.1 == mo)).map (fun pr => pr.2)))
        else none := by
  unfold monthlySums
  rw [lookupMonth_map]
  have hmem : (mo ∈ List.insertionSort Date.le ((rows.map (fun pr => monthStart pr.1)).dedup))
      ↔ mo ∈ rows.map (fun pr => monthStart pr.1) := by
    rw [(List.perm_insertionSort _ _).mem_iff, List.mem_dedup]
  by_cases h : mo ∈ rows.map (fun pr => monthStart pr.1)
  · rw [if_pos (hmem.mpr h), if_pos h]
  · rw [if_neg (fun hc => h (hmem.mp hc)), if_neg h]

theorem filterMap_month_filter {α : Type} (per : α → Option Date) (val : α → Option ℚ)
    (l : List α) (mo : Date) :
    (rowsOf per val l).filter (fun pr => monthStart pr.1 == mo)
      = rowsOf per val (l.filter (fun r => (per r).any (fun p => monthStart p == mo))) := by
  induction l with
  | nil => rfl
  | cons r l ih =>
    unfold rowsOf at ih ⊢
    rw [List.filterMap_cons, List.filter_cons]
    cases hp : per r with
    | none => simp [hp, ih]
    | some p =>
      by_cases hm : (monthStart p == mo) = true
      · simp [hp, hm, List.filter_cons, List.filterMap_cons, ih]
      · simp [hp, hm, List.filter_cons, List.filterMap_cons, ih]

theorem filterMap_values {α : Type} (per : α → Option Date) (val : α → Option ℚ)
    (l : List α) (hall : ∀ r ∈ l, (per r).isSome = true) :
    (rowsOf per val l).map (fun pr => pr.2) = l.map val := by
  induction l with
  | nil => rfl
  | cons r l ih =>
    cases hp : per r with
    | none => exact absurd (hall r (List.mem_cons_self _ _)) (by rw [hp]; simp)
    | some p =>
      unfold rowsOf at ih ⊢
      rw [List.filterMap_cons]
      simp only [hp, Option.map_some']
      rw [List.map_cons, List.map_cons]
      rw [ih (fun r hr => hall r (List.mem_cons_of_mem _ hr))]

theorem mem_months_iff_filter {α : Type} (per : α → Option Date) (val : α → Option ℚ)
    (l : List α) (mo : Date) :
    (mo ∈ (rowsOf per val l).map (fun pr => monthStart pr.1))
      ↔ ¬((l.filter (fun r => (per r).any (fun p => monthStart p == mo))).isEmpty = true) := by
  rw [List.isEmpty_iff]
  constructor
  · intro hmo hnil
    obtain ⟨pr, hpr, hpr2⟩ := List.mem_map.mp hmo
    obtain ⟨r, hrl, hr2⟩ := List.mem_filterMap.mp hpr
    obtain ⟨p, hp, hp2⟩ := Option.map_eq_some'.mp hr2
    have hmem : r ∈ l.filter (fun r => (per r).any (fun p => monthStart p == mo)) := by
      rw [List.mem_filter]
      refine ⟨hrl, ?_⟩
      rw [hp]
      have hpm : monthStart p = mo := by
        rw [← hp2] at hpr2
        exact hpr2
      simp [hpm]
    rw [hnil] at hmem
    exact absurd hmem (List.not_mem_nil r)
  · intro hne
    rcases hfil : l.filter (fun r => (per r).any (fun p => monthStart p == mo)) with _ | ⟨r, rest⟩
    · exact absurd hfil hne
    · have hr : r ∈ l.filter (fun r => (per r).any (fun p => monthStart p == mo)) := by
        rw [hfil]
        exact List.mem_cons_self _ _
      have hrl := (List.mem_filter.mp hr).1
      have hrp := (List.mem_filter.mp hr).2
      cases hpr : per r with
      | none =>
        rw [hpr] at hrp
        exact absurd hrp (by simp)
      | some p =>
        rw [hpr] at hrp
        have hmo : monthStart p = mo := by simpa using hrp
        refine List.mem_map.mpr ⟨(p, val r), ?_, by simpa using hmo⟩
        exact List.mem_filterMap.mpr ⟨r, hrl, by rw [hpr]; rfl⟩

theorem specMonthly_isSome {α : Type} (per : α → Option Date) (val : α → Option ℚ)
    (l : List α) (mo : Date) :
    ((specMonthly per val l mo).isSome = true)
      ↔ mo ∈ (rowsOf per val l).map (fun pr => monthStart pr.1) := by
  unfold specMonthly
  by_cases h : (l.filter (fun r => (per r).any (fun p => monthStart p == mo))).isEmpty = true
  · rw [if_pos h]
    simp [mem_months_iff_filter per val l mo, h]
  · rw [if_neg h]
    simp [mem_months_iff_filter per val l mo, h]

theorem lookupMonth_monthly_spec {α : Type} (per : α → Option Date) (val : α → Option ℚ)
    (l : List α) (mo : Date) :
    lookupMonth (monthlySums (rowsOf per val l)) mo = specMonthly per val l mo := by
  rw [lookupMonth_monthlySums]
  unfold specMonthly
  have hsum : ((rowsOf per val l).filter (fun pr => monthStart pr.1 == mo)).map (fun pr => pr.2)
      = (l.filter (fun r => (per r).any (fun p => monthStart p == mo))).map val := by
    rw [filterMap_month_filter]
    refine filterMap_values per val _ (fun r hr => ?_)
    have hp := (List.mem_filter.mp hr).2
    cases hpr : per r with
    | none =>
      rw [hpr] at hp
      exact absurd hp (by simp)
    | some p => simp [hpr]
  by_cases h : (l.filter (fun r => (per r).any (fun p => monthStart p == mo))).isEmpty = true
  · rw [if_neg (fun hc => ((mem_months_iff_filter per val l mo).mp hc) h), if_pos h]
  · rw [if_pos ((mem_months_iff_filter per val l mo).mpr h), if_neg h, hsum]

/-- Claim C6: `actualVsForecast` is a full outer join on truncated month start
between the monthly actual revenue sums and the monthly forecast sums: its
months are ascending and distinct, and a triple `(month, actual, forecast)`
occurs exactly when the month has actual or forecast data, the actual
component being the month's actual sum when present and null otherwise, and
the forecast component likewise — in particular a month present only in the
forecast data yields `(month, null, forecastSum)`. -/
theorem actualVsForecast_outer_join (facts : List FactRecord) (fs : List ForecastRecord) :
    ((actualVsForecast facts fs).map (fun t => t.1)).Pairwise Date.le
    ∧ ((actualVsForecast facts fs).map (fun t => t.1)).Nodup
    ∧ ∀ mo a f, ((mo, a, f) ∈ actualVsForecast facts fs ↔
        (((specMonthlyActual facts mo).isSome = true
            ∨ (specMonthlyForecast fs mo).isSome = true)
          ∧ a = specMonthlyActual facts mo ∧ f = specMonthlyForecast fs mo)) := by
  have hmonths : (actualVsForecast facts fs).map (fun t => t.1)
      = List.insertionSort Date.le
          (((monthlySums (factRows facts)).map (fun pr => pr.1)
            ++ (monthlySums (forecastRows fs)).map (fun pr => pr.1)).dedup) := by
    unfold actualVsForecast
    exact map_fst_map_triple _ _ _
  have hpres : ∀ mo : Date,
      (mo ∈ List.insertionSort Date.le
          (((monthlySums (factRows facts)).map (fun pr => pr.1)
            ++ (monthlySums (forecastRows fs)).map (fun pr => pr.1)).dedup))
        ↔ ((specMonthlyActual facts mo).isSome = true
            ∨ (specMonthlyForecast fs mo).isSome = true) := by
    intro mo
    rw [(List.perm_insertionSort _ _).mem_iff, List.mem_dedup, List.mem_append,
      mem_monthlySums_months, mem_monthlySums_months]
    unfold factRows forecastRows specMonthlyActual specMonthlyForecast
    rw [specMonthly_isSome, specMonthly_isSome]
  have hlookA : ∀ mo : Date, lookupMonth (monthlySums (factRows facts)) mo
      = specMonthlyActual facts mo := by
    intro mo
    unfold factRows specMonthlyActual
    exact lookupMonth_monthly_spec _ _ _ _
  have hlookF : ∀ mo : Date, lookupMonth (monthlySums (forecastRows fs)) mo
      = specMonthlyForecast fs mo := by
    intro mo
    unfold forecastRows specMonthlyForecast
    exact lookupMonth_monthly_spec _ _ _ _
  refine ⟨?_, ?_, ?_⟩
  · rw [hmonths]
    exact List.sorted_insertionSort _ _
  · rw [hmonths]
    exact ((List.perm_insertionSort _ _).nodup_iff).mpr (List.nodup_dedup _)
  · intro mo a f
    constructor
    · intro hmem
      unfold actualVsForecast at hmem
      obtain ⟨mo', hmo', heq⟩ := List.mem_map.mp hmem
      simp only [Prod.mk.injEq] at heq
      obtain ⟨h1, h2, h3⟩ := heq
      subst h1
      refine ⟨(hpres mo').mp hmo', ?_, ?_⟩
      · rw [← h2, hlookA]
      · rw [← h3, hlookF]
    · rintro ⟨hp, ha, hf⟩
      unfold actualVsForecast
      refine List.mem_map.mpr ⟨mo, (hpres mo).mpr hp, ?_⟩
      show (mo, lookupMonth (monthlySums (factRows facts)) mo,
        lookupMonth (monthlySums (forecastRows fs)) mo) = (mo, a, f)
      rw [hlookA mo, hlookF mo, ← ha, ← hf]

/-- Claim C6, witness: a month present only in the forecast data (March 2025,
forecast 50) appears as `(2025-03-01, null, 50)`; the single actual row has a
null period and contributes no actual month. -/
theorem actualVsForecast_outer_join_witness :
    ((⟨2025, 3, 1⟩ : Date), (none : Option ℚ), some (50 : ℚ))
      ∈ actualVsForecast [⟨"X", none, some 77, none, none⟩]
          [⟨"A", some ⟨2025, 3, 14⟩, some 50⟩] := by
  have ha : specMonthlyActual [⟨"X", none, some 77, none, none⟩] ⟨2025, 3, 1⟩ = none := by
    unfold specMonthlyActual specMonthly
    decide
  have hf : specMonthlyForecast [⟨"A", some ⟨2025, 3, 14⟩, some 50⟩] ⟨2025, 3, 1⟩
      = some 50 := by
    unfold specMonthlyForecast specMonthly
    have hfil : ([⟨"A", some ⟨2025, 3, 14⟩, some 50⟩] : List ForecastRecord).filter
        (fun r => (r.period).any (fun p => monthStart p == (⟨2025, 3, 1⟩ : Date)))
        = [⟨"A", some ⟨2025, 3, 14⟩, some 50⟩] := by decide
    rw [hfil]
    simp [seriesSum]
  exact ((actualVsForecast_outer_join _ _).2.2 _ _ _).mpr
    ⟨Or.inr (by rw [hf]; rfl), ha.symm, hf.symm⟩

/-! ### Forecast-guard theorem -/

/-- Claim C10: the actual-vs-forecast reconciliation is computed exactly when
some filtered forecast record has a non-null period; when every filtered
forecast record's period is null, no reconciliation is produced at all,
whatever the filtered actuals hold. -/
theorem forecast_guard_iff (facts : List FactRecord) (fs : List ForecastRecord) :
    actualVsForecastSection facts fs = none ↔ ∀ r ∈ fs, r.period = none := by
  unfold actualVsForecastSection
  by_cases h : fs.any (fun r => r.period.isSome) = true
  · rw [if_pos h]
    constructor
    · intro hc
      exact absurd hc (by simp)
    · intro hall
      obtain ⟨r, hr, hsome⟩ := List.any_eq_true.mp h
      rw [hall r hr] at hsome
      exact absurd hsome (by simp)
  · rw [if_neg h]
    constructor
    · intro _ r hr
      by_contra hne
      have hsome : r.period.isSome = true := by
        cases hp : r.period with
        | none => exact absurd hp hne
        | some p => rfl
      exact h (List.any_eq_true.mpr ⟨r, hr, hsome⟩)
    · intro _
      rfl

/-- Claim C10, witness: with one actual row holding a period and revenue but
every forecast period null, no reconciliation is produced. -/
theorem forecast_guard_iff_witness :
    actualVsForecastSection [⟨"X", some ⟨2025, 1, 5⟩, some 100, some 40, some 60⟩]
      [⟨"B", none, some 5⟩] = none :=
  (forecast_guard_iff _ _).mpr (by decide)

end Paracon
